import Mathlib

/-!
Verification of the in-memory posts CRUD store of `src/app/main.py` (and its
identical copy `src/main.py`).

The Python module keeps a global list `my_posts` of dictionaries, each holding
the fields of a validated `Post` (a Pydantic model: `title : str`,
`content : str`, `published : bool = True`, `rating : int | None = None`)
together with an `"id"` key.  The handlers are embedded here as pure
functions over an explicit store state `List StoredPost`; a raised
`HTTPException(status_code, detail)` or `IndexError` becomes an
`Except ApiError` value, and `random.randint(3, 1000000)` becomes an oracle
sequence `draws : Nat → Int` whose values are assumed to lie in `[3, 1000000]`
(the inclusive range `randint` guarantees).  The unbounded `while` collision
loop of `create_posts` is embedded with explicit fuel: returning `none` means
the loop has not terminated within that many draws, and divergence of the
Python loop is `none` for every fuel.
-/

namespace Smapi

/-- The Pydantic `Post` request model of `main.py` (title, content, published,
rating); `id` is never part of the request body. -/
structure Post where
  title : String
  content : String
  published : Bool
  rating : Option Int
  deriving Repr, DecidableEq

/-- Pydantic fills omitted fields with their declared defaults:
`published: bool = True`, `rating: int | None = None`.  A request body that
supplies only `title` and `content` validates to this value. -/
def postDefaults (title content : String) : Post :=
  ⟨title, content, true, none⟩

/-- An element of the global `my_posts` list: the dumped fields of a `Post`
plus the `"id"` key assigned by the store. -/
structure StoredPost where
  title : String
  content : String
  published : Bool
  rating : Option Int
  id : Int
  deriving Repr, DecidableEq

/-- Errors a handler can raise.  `httpException code detail` is FastAPI's
`HTTPException(status_code=code, detail=detail)`; `indexError` is the plain
Python `IndexError` raised by `my_posts[-1]` on an empty list, which FastAPI
does not translate to a 404. -/
inductive ApiError where
  | httpException (statusCode : Nat) (detail : String)
  | indexError
  deriving Repr, DecidableEq

/-- Is this error the `NotFound` kind, i.e. an `HTTPException` carrying
`status.HTTP_404_NOT_FOUND`? -/
def ApiError.isNotFound : ApiError → Bool
  | .httpException code _ => code == 404
  | .indexError => false

/-- The module-level seed value of `my_posts` (two posts with ids 1 and 2). -/
def my_posts_seed : List StoredPost :=
  [ ⟨"title of post 1", "content of post 1", false, none, 1⟩,
    ⟨"title of post 2", "content of post 2", false, none, 2⟩ ]

/-- `GET /posts/latest`: `return {"detail": my_posts[-1]}`.  Python's
`l[-1]` is the last element when `l` is non-empty and raises `IndexError`
when `l` is empty. -/
def latest_post (my_posts : List StoredPost) : Except ApiError StoredPost :=
  match my_posts.getLast? with
  | some post => .ok post
  | none => .error .indexError

/-- The 404 detail string of `get_post`:
`f"post with id: {id} was not found :("`. -/
def getPostNotFoundDetail (id : Int) : String :=
  "post with id: " ++ toString id ++ " was not found :("

/-- `GET /posts/{id}`: `next((post for post in my_posts if post["id"] == id), None)`,
a 404 `HTTPException` when the result is `None`.  (The Python guard is
`if not post:`; stored posts are non-empty dicts, hence truthy, so the guard
fires exactly when the search returned `None`.) -/
def get_post (id : Int) (my_posts : List StoredPost) : Except ApiError StoredPost :=
  match my_posts.find? (fun post => post.id == id) with
  | some post => .ok post
  | none => .error (.httpException 404 (getPostNotFoundDetail id))

/-- `GET /posts`: `return {"data": my_posts}` — the whole list, unconditionally. -/
def get_posts (my_posts : List StoredPost) : Except ApiError (List StoredPost) :=
  .ok my_posts

/-- The collision test of `create_posts`'s `while` condition:
`next((True for post in my_posts if post["id"] == id), False)`. -/
def idInUse (id : Int) (my_posts : List StoredPost) : Bool :=
  my_posts.any (fun post => post.id == id)

/-- The id-drawing loop of `create_posts`: draw `draws k`, redraw while the
drawn id is in use.  `fuel` bounds how many draws we unfold; `none` means the
loop is still running after `fuel` draws (the Python loop has no bound of its
own). -/
def pickIdFrom (draws : Nat → Int) (k fuel : Nat) (my_posts : List StoredPost) :
    Option Int :=
  match fuel with
  | 0 => none
  | fuel' + 1 =>
    if idInUse (draws k) my_posts then pickIdFrom draws (k + 1) fuel' my_posts
    else some (draws k)

/-- `POST /posts`: dump the validated body, draw a fresh id, append.
Returns the created record and the new store; `none` when the collision loop
has not finished within `fuel` draws. -/
def create_posts (draws : Nat → Int) (fuel : Nat) (post : Post)
    (my_posts : List StoredPost) : Option (StoredPost × List StoredPost) :=
  match pickIdFrom draws 0 fuel my_posts with
  | none => none
  | some id =>
    let new_post : StoredPost := ⟨post.title, post.content, post.published, post.rating, id⟩
    some (new_post, my_posts ++ [new_post])

/-- `create_posts` terminates on the given draw sequence, post and store:
some finite number of draws suffices for the collision loop to exit. -/
def createTerminates (draws : Nat → Int) (post : Post)
    (my_posts : List StoredPost) : Prop :=
  ∃ fuel, (create_posts draws fuel post my_posts).isSome

/-- The 404 detail string of `get_index_by_id`:
`f"Post with id {id} doesn't exist. Could not perform operation"`. -/
def getIndexNotFoundDetail (id : Int) : String :=
  "Post with id " ++ toString id ++ " doesn\x27t exist. Could not perform operation"

/-- Helper `get_index_by_id`: first index whose post has the given id, or a
404 `HTTPException`. -/
def get_index_by_id (id : Int) (my_posts : List StoredPost) : Except ApiError Nat :=
  match my_posts.findIdx? (fun post => post.id == id) with
  | some idx => .ok idx
  | none => .error (.httpException 404 (getIndexNotFoundDetail id))

/-- `DELETE /posts/{id}`: `del my_posts[get_index_by_id(id)]`.  The index
lookup raises before the `del` statement runs, so on error the store is the
one we started with. -/
def delete_post (id : Int) (my_posts : List StoredPost) :
    Except ApiError Unit × List StoredPost :=
  match get_index_by_id id my_posts with
  | .error e => (.error e, my_posts)
  | .ok idx => (.ok (), my_posts.eraseIdx idx)

/-- `PUT /posts/{id}` (the handler named `method_name`): look up the index
(raising 404 if absent), dump the body, overwrite its `"id"` with the path
id, and assign `my_posts[idx] = post_dict`.  The handler's response carries
`post_dict` as `"data"`; we return that record. -/
def method_name (id : Int) (post : Post) (my_posts : List StoredPost) :
    Except ApiError StoredPost × List StoredPost :=
  match get_index_by_id id my_posts with
  | .error e => (.error e, my_posts)
  | .ok idx =>
    let post_dict : StoredPost := ⟨post.title, post.content, post.published, post.rating, id⟩
    (.ok post_dict, my_posts.set idx post_dict)

/-- Store states reachable from the module's seed list by the mutating
handlers (`create_posts`, `method_name`, `delete_post`); the read handlers
do not touch `my_posts`. -/
inductive Reachable : List StoredPost → Prop where
  | seed : Reachable my_posts_seed
  | create (draws : Nat → Int) (fuel : Nat) (post : Post) (np : StoredPost)
      (s s' : List StoredPost) : Reachable s →
      create_posts draws fuel post s = some (np, s') → Reachable s'
  | update (id : Int) (post : Post) (r : Except ApiError StoredPost)
      (s s' : List StoredPost) : Reachable s →
      method_name id post s = (r, s') → Reachable s'
  | delete (id : Int) (r : Except ApiError Unit) (s s' : List StoredPost) :
      Reachable s → delete_post id s = (r, s') → Reachable s'

/-! ### Helper lemmas -/

theorem idInUse_iff {id : Int} {s : List StoredPost} :
    idInUse id s = true ↔ ∃ p ∈ s, p.id = id := by
  simp [idInUse, List.any_eq_true]

theorem idInUse_false_iff {id : Int} {s : List StoredPost} :
    idInUse id s = false ↔ ∀ p ∈ s, p.id ≠ id := by
  rw [← Bool.not_eq_true, idInUse_iff]
  push_neg
  rfl

theorem pickIdFrom_fresh {draws : Nat → Int} {s : List StoredPost} :
    ∀ {fuel k : Nat} {id : Int},
      pickIdFrom draws k fuel s = some id → idInUse id s = false := by
  intro fuel
  induction fuel with
  | zero => intro k id h; simp [pickIdFrom] at h
  | succ n ih =>
    intro k id h
    simp only [pickIdFrom] at h
    split at h
    · exact ih h
    · cases h
      simp_all

theorem pickIdFrom_mem_draws {draws : Nat → Int} {s : List StoredPost} :
    ∀ {fuel k : Nat} {id : Int},
      pickIdFrom draws k fuel s = some id → ∃ n, draws n = id := by
  intro fuel
  induction fuel with
  | zero => intro k id h; simp [pickIdFrom] at h
  | succ n ih =>
    intro k id h
    simp only [pickIdFrom] at h
    split at h
    · exact ih h
    · cases h
      exact ⟨_, rfl⟩

theorem pickIdFrom_none_of_allUsed {draws : Nat → Int} {s : List StoredPost}
    (h : ∀ n, idInUse (draws n) s = true) :
    ∀ (fuel k : Nat), pickIdFrom draws k fuel s = none := by
  intro fuel
  induction fuel with
  | zero => intro k; simp [pickIdFrom]
  | succ n ih =>
    intro k
    simp only [pickIdFrom, h k, if_true]
    exact ih (k + 1)

theorem pickIdFrom_isSome_of_free {draws : Nat → Int} {s : List StoredPost} :
    ∀ (m k : Nat), idInUse (draws (k + m)) s = false →
      (pickIdFrom draws k (m + 1) s).isSome := by
  intro m
  induction m with
  | zero =>
    intro k h
    simp only [Nat.add_zero] at h
    simp [pickIdFrom, h]
  | succ n ih =>
    intro k h
    by_cases hc : idInUse (draws k) s
    · simpa [pickIdFrom, hc] using ih (k + 1) (by rw [show k + 1 + n = k + (n + 1) by omega]; exact h)
    · simp [pickIdFrom, hc]

theorem find?_id_eq_none {id : Int} {s : List StoredPost} :
    s.find? (fun p => p.id == id) = none ↔ idInUse id s = false := by
  rw [List.find?_eq_none, idInUse_false_iff]
  simp

theorem findIdx?_id_none_iff {id : Int} :
    ∀ {s : List StoredPost},
      s.findIdx? (fun p => p.id == id) = none ↔ idInUse id s = false := by
  intro s
  induction s with
  | nil => simp [idInUse]
  | cons a t ih =>
    by_cases hc : (a.id == id) = true
    · simp [List.findIdx?_cons, hc, idInUse]
    · simp only [List.findIdx?_cons, hc, if_false]
      rw [show idInUse id (a :: t) = ((a.id == id) || idInUse id t) by simp [idInUse]]
      simp [hc, ← ih]

theorem find?_append_fresh {id : Int} {np : StoredPost} (hnp : np.id = id) :
    ∀ {s : List StoredPost}, (∀ p ∈ s, p.id ≠ id) →
      (s ++ [np]).find? (fun p => p.id == id) = some np := by
  intro s
  induction s with
  | nil => intro _; simp [List.find?, hnp]
  | cons a t ih =>
    intro hall
    have ha : (a.id == id) = false := by
      simpa using hall a (List.mem_cons_self a t)
    simp only [List.cons_append, List.find?_cons, ha]
    exact ih (fun p hp => hall p (List.mem_cons_of_mem a hp))

theorem get_post_set_of_findIdx? {id : Int} {pd : StoredPost} (hpd : pd.id = id) :
    ∀ {s : List StoredPost} {idx : Nat},
      s.findIdx? (fun p => p.id == id) = some idx →
      get_post id (s.set idx pd) = .ok pd := by
  intro s
  induction s with
  | nil => intro idx h; simp [List.findIdx?] at h
  | cons a t ih =>
    intro idx h
    rw [List.findIdx?_cons] at h
    by_cases hc : (a.id == id) = true
    · rw [if_pos hc] at h
      cases h
      simp [get_post, List.find?, hpd]
    · rw [if_neg hc] at h
      rw [List.findIdx?_succ] at h
      cases hj : t.findIdx? (fun p => p.id == id) with
      | none => rw [hj] at h; simp at h
      | some j =>
        rw [hj] at h
        simp at h
        subst h
        have ht := ih hj
        simp only [List.set_cons_succ]
        simp only [get_post, List.find?_cons, hc] at ht ⊢
        exact ht

theorem map_id_set_of_findIdx? {id : Int} {pd : StoredPost} (hpd : pd.id = id) :
    ∀ {s : List StoredPost} {idx : Nat},
      s.findIdx? (fun p => p.id == id) = some idx →
      (s.set idx pd).map StoredPost.id = s.map StoredPost.id := by
  intro s
  induction s with
  | nil => intro idx h; simp [List.findIdx?] at h
  | cons a t ih =>
    intro idx h
    rw [List.findIdx?_cons] at h
    by_cases hc : (a.id == id) = true
    · rw [if_pos hc] at h
      cases h
      have : a.id = id := by simpa using hc
      simp [hpd, this]
    · rw [if_neg hc] at h
      rw [List.findIdx?_succ] at h
      cases hj : t.findIdx? (fun p => p.id == id) with
      | none => rw [hj] at h; simp at h
      | some j =>
        rw [hj] at h
        simp at h
        subst h
        simp [ih hj]

theorem eraseIdx_eq_eraseP_of_findIdx? {id : Int} :
    ∀ {s : List StoredPost} {idx : Nat},
      s.findIdx? (fun p => p.id == id) = some idx →
      s.eraseIdx idx = s.eraseP (fun p => p.id == id) := by
  intro s
  induction s with
  | nil => intro idx h; simp [List.findIdx?] at h
  | cons a t ih =>
    intro idx h
    rw [List.findIdx?_cons] at h
    by_cases hc : (a.id == id) = true
    · rw [if_pos hc] at h
      cases h
      simp [List.eraseP_cons, hc]
    · rw [if_neg hc] at h
      rw [List.findIdx?_succ] at h
      cases hj : t.findIdx? (fun p => p.id == id) with
      | none => rw [hj] at h; simp at h
      | some j =>
        rw [hj] at h
        simp at h
        subst h
        simp [List.eraseP_cons, hc, ih hj]

theorem find?_eraseP_none_of_nodup {id : Int} :
    ∀ {s : List StoredPost}, (s.map StoredPost.id).Nodup →
      (s.eraseP (fun p => p.id == id)).find? (fun p => p.id == id) = none := by
  intro s
  induction s with
  | nil => intro _; simp [List.eraseP]
  | cons a t ih =>
    intro hn
    simp only [List.map_cons, List.nodup_cons] at hn
    obtain ⟨hnotmem, hnt⟩ := hn
    by_cases hc : (a.id == id) = true
    · have ha : a.id = id := by simpa using hc
      simp only [List.eraseP_cons, hc, cond_true]
      rw [List.find?_eq_none]
      intro p hp
      have : p.id ≠ id := by
        intro hpid
        exact hnotmem (by rw [ha, ← hpid]; exact List.mem_map_of_mem StoredPost.id hp)
      simpa using this
    · simp only [List.eraseP_cons, hc, cond_false]
      simp only [List.find?_cons, hc]
      exact ih hnt

theorem create_posts_some_elim {draws : Nat → Int} {fuel : Nat} {post : Post}
    {s : List StoredPost} {np : StoredPost} {s' : List StoredPost}
    (h : create_posts draws fuel post s = some (np, s')) :
    pickIdFrom draws 0 fuel s = some np.id ∧
    np.title = post.title ∧ np.content = post.content ∧
    np.published = post.published ∧ np.rating = post.rating ∧
    s' = s ++ [np] := by
  unfold create_posts at h
  cases hp : pickIdFrom draws 0 fuel s with
  | none => rw [hp] at h; simp at h
  | some id =>
    rw [hp] at h
    simp only [Option.some.injEq, Prod.mk.injEq] at h
    obtain ⟨hnp, hs'⟩ := h
    subst hnp
    subst hs'
    exact ⟨rfl, rfl, rfl, rfl, rfl, rfl⟩

theorem get_index_by_id_error_of_notInUse {id : Int} {s : List StoredPost}
    (h : idInUse id s = false) :
    get_index_by_id id s = .error (.httpException 404 (getIndexNotFoundDetail id)) := by
  unfold get_index_by_id
  rw [findIdx?_id_none_iff.mpr h]

theorem get_index_by_id_ok_of_inUse {id : Int} {s : List StoredPost}
    (h : idInUse id s = true) :
    ∃ idx, s.findIdx? (fun p => p.id == id) = some idx ∧
      get_index_by_id id s = .ok idx := by
  cases hf : s.findIdx? (fun p => p.id == id) with
  | none =>
    rw [findIdx?_id_none_iff] at hf
    rw [hf] at h
    cases h
  | some idx =>
    refine ⟨idx, rfl, ?_⟩
    unfold get_index_by_id
    rw [hf]

/-! ### A store occupying every id `create_posts` can draw

`randint(3, 1000000)` has 999998 possible values; `fullStore` holds one post
for each of them, so every admissible draw collides and the `while` loop of
`create_posts` never exits. -/

/-- `fullStoreAux n` holds one post for each id in `[3, n + 2]`. -/
def fullStoreAux : Nat → List StoredPost
  | 0 => []
  | n + 1 => ⟨"full", "full", true, none, (n : Int) + 3⟩ :: fullStoreAux n

/-- A store holding a post for every id in the inclusive range
`[3, 1000000]` that `random.randint(3, 1000000)` can produce
(999998 posts, ids `3, 4, ..., 1000000`). -/
def fullStore : List StoredPost :=
  fullStoreAux 999998

theorem fullStoreAux_idInUse :
    ∀ (n : Nat) {id : Int}, 3 ≤ id → id < (n : Int) + 3 →
      idInUse id (fullStoreAux n) = true := by
  intro n
  induction n with
  | zero => intro id h3 hM; omega
  | succ k ih =>
    intro id h3 hM
    show idInUse id (⟨"full", "full", true, none, (k : Int) + 3⟩ :: fullStoreAux k) = true
    simp only [idInUse, List.any_cons]
    by_cases he : (k : Int) + 3 = id
    · simp [he]
    · have hlt : id < (k : Int) + 3 := by push_cast at hM; omega
      have ht := ih h3 hlt
      simp only [idInUse] at ht
      simp [ht]

theorem fullStore_idInUse {id : Int} (h3 : 3 ≤ id) (hM : id ≤ 1000000) :
    idInUse id fullStore = true :=
  fullStoreAux_idInUse 999998 h3 (by push_cast; omega)

/-- `create_posts` diverges on this store for every admissible draw
sequence: no fuel makes the collision loop exit. -/
def divergesOnAllInRangeDraws (post : Post) (s : List StoredPost) : Prop :=
  ∀ draws : Nat → Int, (∀ n, 3 ≤ draws n ∧ draws n ≤ 1000000) →
    ¬ createTerminates draws post s

theorem get_index_by_id_ok_elim {id : Int} {s : List StoredPost} {idx : Nat}
    (h : get_index_by_id id s = .ok idx) :
    s.findIdx? (fun p => p.id == id) = some idx := by
  unfold get_index_by_id at h
  cases hf : s.findIdx? (fun p => p.id == id) with
  | none => rw [hf] at h; cases h
  | some j => rw [hf] at h; cases h; rfl

theorem nodup_append_singleton {α : Type} (l : List α) (a : α) :
    (l ++ [a]).Nodup ↔ l.Nodup ∧ a ∉ l := by
  simp [List.nodup_append]

/-! ### The claims -/

/-- C1: every store state reachable from the seed by any sequence of
`create_posts`, `method_name` (update) and `delete_post` calls has pairwise
distinct ids: `create_posts` only appends an id its retry loop found not in
use, update rewrites the post in place with the same id, and delete only
removes. -/
theorem reachable_ids_nodup (s : List StoredPost) (h : Reachable s) :
    (s.map StoredPost.id).Nodup := by
  induction h with
  | seed => decide
  | create draws fuel post np s s' hr hc ih =>
    obtain ⟨hpick, _, _, _, _, hs'⟩ := create_posts_some_elim hc
    subst hs'
    have hfree : idInUse np.id s = false := pickIdFrom_fresh hpick
    rw [idInUse_false_iff] at hfree
    rw [List.map_append, List.map_singleton, nodup_append_singleton]
    refine ⟨ih, ?_⟩
    intro hmem
    obtain ⟨p, hp, hpe⟩ := List.mem_map.mp hmem
    exact hfree p hp hpe
  | update idv post r s s' hr hu ih =>
    unfold method_name at hu
    cases hg : get_index_by_id idv s with
    | error e => rw [hg] at hu; cases hu; exact ih
    | ok idx =>
      rw [hg] at hu
      cases hu
      rw [map_id_set_of_findIdx? rfl (get_index_by_id_ok_elim hg)]
      exact ih
  | delete idv r s s' hr hd ih =>
    unfold delete_post at hd
    cases hg : get_index_by_id idv s with
    | error e => rw [hg] at hd; cases hd; exact ih
    | ok idx =>
      rw [hg] at hd
      cases hd
      exact ih.sublist ((List.eraseIdx_sublist s idx).map StoredPost.id)

/-- C1 witness: the invariant instantiated at the seed store. -/
theorem reachable_ids_nodup_witness :
    (my_posts_seed.map StoredPost.id).Nodup :=
  reachable_ids_nodup my_posts_seed Reachable.seed

/-- C2 counterexample: on the empty store `latest_post` fails with a plain
Python `IndexError` (from `my_posts[-1]`), which is not a 404 `NotFound`
`HTTPException`; the claim says the failure is `NotFound`. -/
theorem latest_post_empty_not_notFound :
    latest_post [] = .error ApiError.indexError ∧
    ApiError.indexError.isNotFound = false :=
  ⟨rfl, rfl⟩

/-- C2 (amended): on the empty store `latest_post` fails with an unhandled
`IndexError` (not `NotFound`); on a non-empty store it returns the most
recently inserted (last) post. -/
theorem latest_post_spec :
    latest_post [] = .error ApiError.indexError ∧
    ∀ (s : List StoredPost) (p : StoredPost), latest_post (s ++ [p]) = .ok p := by
  refine ⟨rfl, ?_⟩
  intro s p
  simp [latest_post]

/-- C3 counterexample: the retry loop of `create_posts` is unbounded and has
no deterministic-counter fallback.  On a store occupying every id in
`randint`'s range `[3, 1000000]`, every admissible draw collides, so the loop
never exits for any draw sequence whatsoever: `create_posts` does not
terminate for this store state. -/
theorem create_posts_diverges_on_fullStore :
    divergesOnAllInRangeDraws (postDefaults "A" "B") fullStore := by
  intro draws hrange hterm
  obtain ⟨fuel, hsome⟩ := hterm
  have hall : ∀ n, idInUse (draws n) fullStore = true := fun n =>
    fullStore_idInUse (hrange n).1 (hrange n).2
  have hnone := pickIdFrom_none_of_allUsed hall fuel 0
  unfold create_posts at hsome
  rw [hnone] at hsome
  simp at hsome

/-- C3 (amended): `create_posts` terminates exactly when the random draw
sequence eventually yields an id not currently in use; the loop performs no
bounded retry count and has no deterministic fallback, so with every id in
`[3, 1000000]` occupied it runs forever. -/
theorem createTerminates_iff_eventually_free (draws : Nat → Int) (post : Post)
    (s : List StoredPost) :
    createTerminates draws post s ↔ ∃ n, idInUse (draws n) s = false := by
  constructor
  · rintro ⟨fuel, hsome⟩
    unfold create_posts at hsome
    cases hp : pickIdFrom draws 0 fuel s with
    | none => rw [hp] at hsome; simp at hsome
    | some id =>
      obtain ⟨n, hn⟩ := pickIdFrom_mem_draws hp
      refine ⟨n, ?_⟩
      rw [hn]
      exact pickIdFrom_fresh hp
  · rintro ⟨n, hn⟩
    refine ⟨n + 1, ?_⟩
    have hsome := pickIdFrom_isSome_of_free n 0 (by simpa using hn)
    unfold create_posts
    cases hp : pickIdFrom draws 0 (n + 1) s with
    | none => rw [hp] at hsome; simp at hsome
    | some id => simp

/-- C4: immediately after a successful `create_posts`, `get_post` on the
assigned id succeeds and returns the created record, whose fields equal the
supplied ones; a body that validated with Pydantic's defaults (omitted
`published` and `rating`) yields `published = true` and `rating = none`. -/
theorem get_after_create_returns_fields (draws : Nat → Int) (fuel : Nat)
    (post : Post) (s : List StoredPost) (np : StoredPost) (s' : List StoredPost)
    (h : create_posts draws fuel post s = some (np, s')) :
    get_post np.id s' = .ok np ∧
    np.title = post.title ∧ np.content = post.content ∧
    np.published = post.published ∧ np.rating = post.rating ∧
    (post = postDefaults post.title post.content →
      np.published = true ∧ np.rating = none) := by
  obtain ⟨hpick, ht, hc, hpub, hrat, hs'⟩ := create_posts_some_elim h
  subst hs'
  have hfree := pickIdFrom_fresh hpick
  rw [idInUse_false_iff] at hfree
  refine ⟨?_, ht, hc, hpub, hrat, ?_⟩
  · unfold get_post
    rw [find?_append_fresh rfl hfree]
  · intro hd
    constructor
    · rw [hpub, hd]; rfl
    · rw [hrat, hd]; rfl

/-- C4 witness: create `{title:"A", content:"B"}` (defaults filled in) on the
seed store with the draw 5; `get_post 5` returns the created post. -/
theorem get_after_create_returns_fields_witness :
    create_posts (fun _ => 5) 1 (postDefaults "A" "B") my_posts_seed =
      some (⟨"A", "B", true, none, 5⟩, my_posts_seed ++ [⟨"A", "B", true, none, 5⟩]) ∧
    get_post 5 (my_posts_seed ++ [⟨"A", "B", true, none, 5⟩]) =
      .ok ⟨"A", "B", true, none, 5⟩ :=
  ⟨by decide,
   (get_after_create_returns_fields (fun _ => 5) 1 (postDefaults "A" "B")
      my_posts_seed ⟨"A", "B", true, none, 5⟩
      (my_posts_seed ++ [⟨"A", "B", true, none, 5⟩]) (by decide)).1⟩

/-- C5: when a post with the given id is stored, `method_name` (the PUT
handler) replaces that post in full — every mutable field becomes exactly
the supplied one, the id stays the path id — returns the updated record, and
a subsequent `get_post id` returns exactly the supplied fields with that id;
when the id is absent it fails with a 404 `HTTPException` and the store is
unchanged. -/
theorem update_full_replacement (id : Int) (post : Post) (s : List StoredPost) :
    (idInUse id s = false →
      method_name id post s =
        (.error (.httpException 404 (getIndexNotFoundDetail id)), s)) ∧
    (idInUse id s = true →
      ∃ idx, get_index_by_id id s = .ok idx ∧
        method_name id post s =
          (.ok ⟨post.title, post.content, post.published, post.rating, id⟩,
           s.set idx ⟨post.title, post.content, post.published, post.rating, id⟩) ∧
        get_post id (method_name id post s).2 =
          .ok ⟨post.title, post.content, post.published, post.rating, id⟩) := by
  constructor
  · intro h
    unfold method_name
    rw [get_index_by_id_error_of_notInUse h]
  · intro h
    obtain ⟨idx, hf, hok⟩ := get_index_by_id_ok_of_inUse h
    refine ⟨idx, hok, ?_, ?_⟩
    · unfold method_name
      rw [hok]
    · unfold method_name
      rw [hok]
      have hpd : (⟨post.title, post.content, post.published, post.rating, id⟩ : StoredPost).id = id := rfl
      exact get_post_set_of_findIdx? hpd hf

/-- C5 witness: update post 1 of the seed store with `{title:"X", content:"Y"}`;
the subsequent get returns exactly those fields with id 1. -/
theorem update_full_replacement_witness :
    get_post 1 (method_name 1 (postDefaults "X" "Y") my_posts_seed).2 =
      .ok ⟨"X", "Y", true, none, 1⟩ := by
  obtain ⟨idx, hok, hmn, hget⟩ :=
    (update_full_replacement 1 (postDefaults "X" "Y") my_posts_seed).2 (by decide)
  exact hget

/-- C6: `delete_post` fails with a 404 `HTTPException` and leaves the store
unchanged when no stored post has the id; otherwise it succeeds with no
payload and removes exactly the (first) post with that id; and on a store
with pairwise-distinct ids a subsequent `get_post id` fails with 404. -/
theorem delete_post_spec (id : Int) (s : List StoredPost) :
    (idInUse id s = false →
      delete_post id s =
        (.error (.httpException 404 (getIndexNotFoundDetail id)), s)) ∧
    (idInUse id s = true →
      (delete_post id s).1 = .ok () ∧
      (delete_post id s).2 = s.eraseP (fun p => p.id == id)) ∧
    ((s.map StoredPost.id).Nodup →
      get_post id (delete_post id s).2 =
        .error (.httpException 404 (getPostNotFoundDetail id))) := by
  refine ⟨?_, ?_, ?_⟩
  · intro h
    unfold delete_post
    rw [get_index_by_id_error_of_notInUse h]
  · intro h
    obtain ⟨idx, hf, hok⟩ := get_index_by_id_ok_of_inUse h
    unfold delete_post
    rw [hok]
    exact ⟨rfl, eraseIdx_eq_eraseP_of_findIdx? hf⟩
  · intro hn
    by_cases h : idInUse id s = true
    · obtain ⟨idx, hf, hok⟩ := get_index_by_id_ok_of_inUse h
      unfold delete_post
      rw [hok]
      show get_post id (s.eraseIdx idx) = _
      rw [eraseIdx_eq_eraseP_of_findIdx? hf]
      unfold get_post
      rw [find?_eraseP_none_of_nodup hn]
    · have h' : idInUse id s = false := by simpa using h
      unfold delete_post
      rw [get_index_by_id_error_of_notInUse h']
      show get_post id s = _
      unfold get_post
      rw [find?_id_eq_none.mpr h']

/-- C6 witness: deleting post 1 from the seed store succeeds and the
subsequent get for id 1 fails with 404. -/
theorem delete_post_spec_witness :
    (delete_post 1 my_posts_seed).1 = .ok () ∧
    get_post 1 (delete_post 1 my_posts_seed).2 =
      .error (.httpException 404 (getPostNotFoundDetail 1)) :=
  ⟨((delete_post_spec 1 my_posts_seed).2.1 (by decide)).1,
   (delete_post_spec 1 my_posts_seed).2.2 (by decide)⟩

/-- C7: `get_post` returns a stored post bearing the requested id exactly
when one exists, and otherwise fails with a 404 `HTTPException` whose detail
message names the missing id (it is built around `toString id`). -/
theorem get_post_spec (id : Int) (s : List StoredPost) :
    (idInUse id s = true →
      ∃ p, get_post id s = .ok p ∧ p.id = id ∧ p ∈ s) ∧
    (idInUse id s = false →
      get_post id s = .error (.httpException 404 (getPostNotFoundDetail id)) ∧
      (ApiError.httpException 404 (getPostNotFoundDetail id)).isNotFound = true ∧
      getPostNotFoundDetail id =
        "post with id: " ++ toString id ++ " was not found :(") := by
  constructor
  · intro h
    cases hf : s.find? (fun p => p.id == id) with
    | none =>
      rw [find?_id_eq_none] at hf
      rw [hf] at h
      cases h
    | some p =>
      refine ⟨p, ?_, ?_, List.mem_of_find?_eq_some hf⟩
      · unfold get_post
        rw [hf]
      · have hp := List.find?_some hf
        simpa using hp
  · intro h
    refine ⟨?_, rfl, rfl⟩
    unfold get_post
    rw [find?_id_eq_none.mpr h]

/-- C7 witness: id 99 is absent from the seed store and `get_post` fails
with the 404 message naming it. -/
theorem get_post_spec_witness :
    get_post 99 my_posts_seed =
      .error (.httpException 404 (getPostNotFoundDetail 99)) :=
  ((get_post_spec 99 my_posts_seed).2 (by decide)).1

/-- C8: when the mutating handlers fail, the store is exactly the one the
operation started with (`get_index_by_id` raises before `del` / the
assignment runs).  The read handlers `get_post`, `latest_post` and
`get_posts` are pure functions of the store by construction and mutate
nothing, failing or not. -/
theorem errors_leave_store_unchanged (id : Int) (post : Post)
    (s : List StoredPost) (e e' : ApiError) :
    ((method_name id post s).1 = .error e → (method_name id post s).2 = s) ∧
    ((delete_post id s).1 = .error e' → (delete_post id s).2 = s) := by
  constructor
  · intro h
    unfold method_name at h ⊢
    cases hg : get_index_by_id id s with
    | error ex => rfl
    | ok idx =>
      rw [hg] at h
      simp at h
  · intro h
    unfold delete_post at h ⊢
    cases hg : get_index_by_id id s with
    | error ex => rfl
    | ok idx =>
      rw [hg] at h
      simp at h

/-- C8 witness: updating and deleting the absent id 99 on the seed store
fails and leaves the seed store intact. -/
theorem errors_leave_store_unchanged_witness :
    (method_name 99 (postDefaults "X" "Y") my_posts_seed).2 = my_posts_seed ∧
    (delete_post 99 my_posts_seed).2 = my_posts_seed :=
  ⟨(errors_leave_store_unchanged 99 (postDefaults "X" "Y") my_posts_seed
      (.httpException 404 (getIndexNotFoundDetail 99))
      (.httpException 404 (getIndexNotFoundDetail 99))).1 (by rfl),
   (errors_leave_store_unchanged 99 (postDefaults "X" "Y") my_posts_seed
      (.httpException 404 (getIndexNotFoundDetail 99))
      (.httpException 404 (getIndexNotFoundDetail 99))).2 (by rfl)⟩

/-- C9: the list handler `get_posts` never fails and returns every stored
post in the store's own (insertion) order, on every store state — in
particular on any state produced by interleaved updates and deletes, which
rewrite in place and remove without reordering — and a successful
`create_posts` appends the new post at the end, so insertion order is
maintained. -/
theorem list_total_insertion_order (s : List StoredPost) :
    get_posts s = .ok s ∧
    (∀ (draws : Nat → Int) (fuel : Nat) (post : Post) (np : StoredPost)
       (s' : List StoredPost),
      create_posts draws fuel post s = some (np, s') →
        get_posts s' = .ok (s ++ [np])) := by
  refine ⟨rfl, ?_⟩
  intro draws fuel post np s' h
  obtain ⟨_, _, _, _, _, hs'⟩ := create_posts_some_elim h
  rw [hs']
  rfl

/-- C9 witness: the seed store listed as-is, and listing after one create
shows the new post appended. -/
theorem list_total_insertion_order_witness :
    get_posts my_posts_seed = .ok my_posts_seed ∧
    get_posts (my_posts_seed ++ [⟨"A", "B", true, none, 5⟩]) =
      .ok (my_posts_seed ++ [⟨"A", "B", true, none, 5⟩]) :=
  ⟨(list_total_insertion_order my_posts_seed).1,
   (list_total_insertion_order my_posts_seed).2 (fun _ => 5) 1
     (postDefaults "A" "B") ⟨"A", "B", true, none, 5⟩
     (my_posts_seed ++ [⟨"A", "B", true, none, 5⟩]) (by decide)⟩

/-- C10 (implicit): an id assigned by a terminating `create_posts` is one of
the draws, hence lies in `randint`'s inclusive range `[3, 1000000]`; in
particular it is never 1 or 2, the ids of the seed posts. -/
theorem created_id_in_range (draws : Nat → Int) (fuel : Nat) (post : Post)
    (s : List StoredPost) (np : StoredPost) (s' : List StoredPost)
    (hrange : ∀ n, 3 ≤ draws n ∧ draws n ≤ 1000000)
    (h : create_posts draws fuel post s = some (np, s')) :
    3 ≤ np.id ∧ np.id ≤ 1000000 ∧ np.id ≠ 1 ∧ np.id ≠ 2 := by
  obtain ⟨hpick, _, _, _, _, _⟩ := create_posts_some_elim h
  obtain ⟨n, hn⟩ := pickIdFrom_mem_draws hpick
  have hr := hrange n
  rw [hn] at hr
  omega

/-- C10 witness: the concrete create from the C4 witness assigns id 5, which
is in range and differs from the seed ids 1 and 2. -/
theorem created_id_in_range_witness :
    3 ≤ (StoredPost.mk "A" "B" true none 5).id ∧
    (StoredPost.mk "A" "B" true none 5).id ≤ 1000000 ∧
    (StoredPost.mk "A" "B" true none 5).id ≠ 1 ∧
    (StoredPost.mk "A" "B" true none 5).id ≠ 2 :=
  created_id_in_range (fun _ => 5) 1 (postDefaults "A" "B") my_posts_seed
    ⟨"A", "B", true, none, 5⟩ (my_posts_seed ++ [⟨"A", "B", true, none, 5⟩])
    (fun _ => ⟨by norm_num, by norm_num⟩) (by decide)

end Smapi
